import Mathlib

/-!
Verification of the LLMap extraction pipeline against its specification.

The JavaScript sources are embedded shallowly:
* strings are lists of characters (`List Char`),
* JavaScript numbers appearing in scoring formulas are rationals (`ℚ`),
* a JavaScript number that may be `NaN` (the result of `parseFloat`) is
  `Option ℚ` with `none` standing for `NaN`,
* asynchronous effects (timers, `fetch`) are made explicit: the wall clock is
  a natural number threaded through the state, and the provider's response is
  an explicit input to the function.
-/

/-! ## Shared string helpers (JavaScript semantics) -/

/-- `String.prototype.toLowerCase` restricted to the character range the
repository handles (ASCII names); applied characterwise. -/
def jsToLower (s : List Char) : List Char :=
  s.map Char.toLower

/-- Boolean prefix test on character lists. -/
def listPrefix : List Char → List Char → Bool
  | [], _ => true
  | _ :: _, [] => false
  | a :: as, b :: bs => a == b && listPrefix as bs

/-- `big.includes(sub)` of JavaScript: `sub` occurs contiguously in `big`. -/
def jsIncludes : List Char → List Char → Bool
  | [], sub => sub.isEmpty
  | c :: t, sub => listPrefix sub (c :: t) || jsIncludes t sub

/-! ## Evaluator (`OCRAnalysisPanel.jsx`, `compareResults`)

`compareResults` walks the uploaded files; for every file that has ground
truth it matches each expected location against the extracted location
strings with a case-insensitive bidirectional containment test, then derives
precision / recall / F1, and finally aggregates totals over all files. -/

/-- One ground-truth record: `{ text, type }` from
`social_media_ground_truth.json`. -/
structure GTRecord where
  text : List Char
  gtType : List Char
deriving DecidableEq, Repr

/-- One accepted match `{ expected, found, type }` as pushed by the source. -/
structure MatchEntry where
  expected : List Char
  found : List Char
  mtype : List Char
deriving DecidableEq, Repr

/-- The containment predicate used by `compareResults`:
`found.toLowerCase().includes(expected.text.toLowerCase()) ||
 expected.text.toLowerCase().includes(found.toLowerCase())`. -/
def matchPred (expectedText foundText : List Char) : Bool :=
  jsIncludes (jsToLower foundText) (jsToLower expectedText) ||
    jsIncludes (jsToLower expectedText) (jsToLower foundText)

/-- Per-file comparison object built by `compareResults`. -/
structure FileComparison where
  matchList : List MatchEntry
  missed : List GTRecord
  falsePositives : List (List Char)
  precision : ℚ
  recallQ : ℚ
  f1 : ℚ
deriving Repr

/-- The `expectedLocations.forEach` loop: each expected record is looked up
with `foundLocations.find(...)`; a hit is appended to `matches`, a miss to
`missed`. -/
def matchLoop (foundLocations : List (List Char)) :
    List GTRecord → List MatchEntry × List GTRecord
  | [] => ([], [])
  | e :: es =>
      let rest := matchLoop foundLocations es
      match foundLocations.find? (fun f => matchPred e.text f) with
      | some f => (⟨e.text, f, e.gtType⟩ :: rest.1, rest.2)
      | none => (rest.1, e :: rest.2)

/-- The per-file body of `compareResults` (lines 45–91 of
`OCRAnalysisPanel.jsx`). -/
def compareFileResults (expectedLocations : List GTRecord)
    (foundLocations : List (List Char)) : FileComparison :=
  let mm := matchLoop foundLocations expectedLocations
  let foundMatches := mm.1
  let missed := mm.2
  let falsePositives :=
    foundLocations.filter
      (fun f => !(expectedLocations.any (fun e => matchPred e.text f)))
  let precision : ℚ :=
    if 0 < foundLocations.length then
      (foundMatches.length : ℚ) / (foundLocations.length : ℚ)
    else 0
  let recallQ : ℚ :=
    if 0 < expectedLocations.length then
      (foundMatches.length : ℚ) / (expectedLocations.length : ℚ)
    else 0
  let f1 : ℚ :=
    if 0 < precision + recallQ then
      2 * (precision * recallQ) / (precision + recallQ)
    else 0
  ⟨foundMatches, missed, falsePositives, precision, recallQ, f1⟩

/-- Batch-level aggregate of `compareResults` (`comparison.overall`). -/
structure OverallMetrics where
  expectedTotal : ℕ
  foundTotal : ℕ
  matchTotal : ℕ
  precision : ℚ
  recallQ : ℚ
  f1 : ℚ
deriving Repr

/-- The `files.forEach` accumulation of `expected_total`, `found_total` and
`matches` over the per-file comparisons. -/
def overallTotals (files : List (List GTRecord × List (List Char))) :
    ℕ × ℕ × ℕ :=
  files.foldl
    (fun acc fp =>
      (acc.1 + fp.1.length, acc.2.1 + fp.2.length,
        acc.2.2 + (compareFileResults fp.1 fp.2).matchList.length))
    (0, 0, 0)

/-- The overall metrics computed at the end of `compareResults`
(lines 99–106 of `OCRAnalysisPanel.jsx`). -/
def compareOverall (files : List (List GTRecord × List (List Char))) :
    OverallMetrics :=
  let t := overallTotals files
  let precision : ℚ := if 0 < t.2.1 then (t.2.2 : ℚ) / (t.2.1 : ℚ) else 0
  let recallQ : ℚ := if 0 < t.1 then (t.2.2 : ℚ) / (t.1 : ℚ) else 0
  let f1 : ℚ :=
    if 0 < precision + recallQ then
      2 * (precision * recallQ) / (precision + recallQ)
    else 0
  ⟨t.1, t.2.1, t.2.2, precision, recallQ, f1⟩

/-! ### Specification-side matcher for claim C1

Modelled from the spec: the Evaluator is specified to score every pair with a
normalized Levenshtein similarity in `[0,1]` plus a substring-containment
bonus capped at `1.0`, accepting a match when the best score exceeds `0.5`.
The repository's `compareResults` has no such scorer, so the spec's matcher
is written out here, for comparison only. -/

/-- Levenshtein edit distance on character lists, with structural fuel
(`a.length + b.length` steps always suffice, each recursive call shortens
the combined input). -/
def levenshteinFuel : ℕ → List Char → List Char → ℕ
  | _, [], bs => bs.length
  | _, a :: as, [] => (a :: as).length
  | 0, _, _ => 0
  | fuel + 1, a :: as, b :: bs =>
      if a = b then levenshteinFuel fuel as bs
      else 1 + min (levenshteinFuel fuel as bs)
        (min (levenshteinFuel fuel (a :: as) bs)
          (levenshteinFuel fuel as (b :: bs)))

/-- Levenshtein edit distance on character lists. -/
def levenshteinDist (a b : List Char) : ℕ :=
  levenshteinFuel (a.length + b.length) a b

/-- Modelled from the spec: normalized Levenshtein similarity in `[0,1]`. -/
def specLevSimilarity (a b : List Char) : ℚ :=
  if max a.length b.length = 0 then 1
  else 1 - (levenshteinDist a b : ℚ) / (max a.length b.length : ℚ)

/-- Modelled from the spec: similarity plus a containment bonus (a fixed
nonnegative amount `bonus`), capped at `1`. -/
def specScore (bonus : ℚ) (a b : List Char) : ℚ :=
  if jsIncludes (jsToLower a) (jsToLower b) ||
      jsIncludes (jsToLower b) (jsToLower a) then
    min 1 (specLevSimilarity a b + bonus)
  else specLevSimilarity a b

/-! ### Claims C1 and C2 -/

lemma matchLoop_eq (found : List (List Char)) (gts : List GTRecord) :
    matchLoop found gts =
      ((gts.filter fun e => found.any fun f => matchPred e.text f).map
        (fun e => (⟨e.text, (found.find? fun f => matchPred e.text f).getD [],
          e.gtType⟩ : MatchEntry)),
        gts.filter fun e => !(found.any fun f => matchPred e.text f)) := by
  induction gts with
  | nil => rfl
  | cons e es ih =>
      simp only [matchLoop, ih]
      cases h : found.find? (fun f => matchPred e.text f) with
      | none =>
          have hany : (found.any fun f => matchPred e.text f) = false := by
            rw [List.any_eq_false]
            intro f hf
            have := List.find?_eq_none.mp h f hf
            simpa using this
          simp [List.filter_cons, hany]
      | some f =>
          have hany : (found.any fun f => matchPred e.text f) = true := by
            rw [List.any_eq_true]
            exact ⟨f, List.mem_of_find?_eq_some h, List.find?_some h⟩
          simp [List.filter_cons, hany, h]

/-- C1, counterexample: on ground truth `"abc"` with the single extraction
`"abd"` the spec's Levenshtein-based score is `2/3 > 0.5` (and no containment
bonus applies), so the claim says the record is matched; the code's
`compareResults` produces no match and reports the record as missed. -/
theorem c1_counterexample :
    matchPred "abc".data "abd".data = false ∧
    1 / 2 < specScore 0 "abc".data "abd".data ∧
    (compareFileResults [⟨"abc".data, "business".data⟩]
      ["abd".data]).matchList = [] ∧
    (compareFileResults [⟨"abc".data, "business".data⟩] ["abd".data]).missed =
      [⟨"abc".data, "business".data⟩] := by
  refine ⟨by decide, ?_, by decide, by decide⟩
  have hpred : (jsIncludes (jsToLower "abc".data) (jsToLower "abd".data) ||
      jsIncludes (jsToLower "abd".data) (jsToLower "abc".data)) = false := by
    decide
  have h : levenshteinDist "abc".data "abd".data = 1 := by decide
  have hm : max ("abc".data).length ("abd".data).length = 3 := by decide
  unfold specScore specLevSimilarity
  rw [hpred]
  simp only [Bool.false_eq_true, if_false, hm, h]
  norm_num

/-- C1, amended: `compareResults` matches a ground-truth record exactly when
some extraction string contains the record's text, or is contained in it,
case-insensitively (the first such extraction is kept); there is no
similarity score, no 0.5/0.8 thresholds, and no exact/partial match type. -/
theorem c1_matching_characterization
    (gts : List GTRecord) (found : List (List Char)) :
    (compareFileResults gts found).missed =
      gts.filter (fun e => !(found.any fun f => matchPred e.text f)) ∧
    (compareFileResults gts found).matchList =
      (gts.filter fun e => found.any fun f => matchPred e.text f).map
        (fun e => ⟨e.text, (found.find? fun f => matchPred e.text f).getD [],
          e.gtType⟩) ∧
    (compareFileResults gts found).falsePositives =
      found.filter (fun f => !(gts.any fun e => matchPred e.text f)) := by
  refine ⟨?_, ?_, rfl⟩
  · show (matchLoop found gts).2 = _
    rw [matchLoop_eq]
  · show (matchLoop found gts).1 = _
    rw [matchLoop_eq]

/-- C2: per-file and overall, precision is matches over total extractions,
recall is matches over total ground truth, F1 is the harmonic mean, and each
metric is 0 whenever its denominator is 0. -/
theorem c2_metrics (gts : List GTRecord) (found : List (List Char))
    (files : List (List GTRecord × List (List Char))) :
    (0 < found.length → (compareFileResults gts found).precision =
      ((compareFileResults gts found).matchList.length : ℚ) / found.length) ∧
    (found.length = 0 → (compareFileResults gts found).precision = 0) ∧
    (0 < gts.length → (compareFileResults gts found).recallQ =
      ((compareFileResults gts found).matchList.length : ℚ) / gts.length) ∧
    (gts.length = 0 → (compareFileResults gts found).recallQ = 0) ∧
    (0 < (compareFileResults gts found).precision +
        (compareFileResults gts found).recallQ →
      (compareFileResults gts found).f1 =
        2 * ((compareFileResults gts found).precision *
            (compareFileResults gts found).recallQ) /
          ((compareFileResults gts found).precision +
            (compareFileResults gts found).recallQ)) ∧
    ((compareFileResults gts found).precision +
        (compareFileResults gts found).recallQ = 0 →
      (compareFileResults gts found).f1 = 0) ∧
    (0 < (compareOverall files).foundTotal → (compareOverall files).precision =
      ((compareOverall files).matchTotal : ℚ) /
        (compareOverall files).foundTotal) ∧
    ((compareOverall files).foundTotal = 0 →
      (compareOverall files).precision = 0) ∧
    (0 < (compareOverall files).expectedTotal →
      (compareOverall files).recallQ =
        ((compareOverall files).matchTotal : ℚ) /
          (compareOverall files).expectedTotal) ∧
    ((compareOverall files).expectedTotal = 0 →
      (compareOverall files).recallQ = 0) ∧
    (0 < (compareOverall files).precision + (compareOverall files).recallQ →
      (compareOverall files).f1 =
        2 * ((compareOverall files).precision *
            (compareOverall files).recallQ) /
          ((compareOverall files).precision +
            (compareOverall files).recallQ)) ∧
    ((compareOverall files).precision + (compareOverall files).recallQ = 0 →
      (compareOverall files).f1 = 0) := by
  refine ⟨fun h => if_pos h, fun h => if_neg (by omega),
    fun h => if_pos h, fun h => if_neg (by omega),
    fun h => if_pos h,
    fun h => if_neg (by
      intro hc
      have hc2 : 0 < (compareFileResults gts found).precision +
          (compareFileResults gts found).recallQ := hc
      rw [h] at hc2; exact lt_irrefl 0 hc2),
    fun h => if_pos h,
    fun h => if_neg (by
      have h2 : (overallTotals files).2.1 = 0 := h
      intro hc; omega),
    fun h => if_pos h,
    fun h => if_neg (by
      have h2 : (overallTotals files).1 = 0 := h
      intro hc; omega),
    fun h => if_pos h,
    fun h => if_neg (by
      intro hc
      have hc2 : 0 < (compareOverall files).precision +
          (compareOverall files).recallQ := hc
      rw [h] at hc2; exact lt_irrefl 0 hc2)⟩

/-- Witness for C2 at concrete inputs: one matched file and the empty batch,
covering both the division form and every zero-denominator case. -/
theorem c2_metrics_witness :
    ((compareFileResults [⟨"ga".data, "b".data⟩] ["ga".data]).precision =
      ((compareFileResults [⟨"ga".data, "b".data⟩]
        ["ga".data]).matchList.length : ℚ) /
        (["ga".data] : List (List Char)).length) ∧
    ((compareFileResults [⟨"ga".data, "b".data⟩] ["ga".data]).recallQ =
      ((compareFileResults [⟨"ga".data, "b".data⟩]
        ["ga".data]).matchList.length : ℚ) /
        ([⟨"ga".data, "b".data⟩] : List GTRecord).length) ∧
    ((compareFileResults [⟨"ga".data, "b".data⟩] ["ga".data]).f1 =
      2 * ((compareFileResults [⟨"ga".data, "b".data⟩] ["ga".data]).precision *
          (compareFileResults [⟨"ga".data, "b".data⟩] ["ga".data]).recallQ) /
        ((compareFileResults [⟨"ga".data, "b".data⟩] ["ga".data]).precision +
          (compareFileResults [⟨"ga".data, "b".data⟩] ["ga".data]).recallQ)) ∧
    ((compareFileResults [] []).precision = 0) ∧
    ((compareFileResults [] []).recallQ = 0) ∧
    ((compareFileResults [] []).f1 = 0) ∧
    ((compareOverall [([⟨"ga".data, "b".data⟩], ["ga".data])]).precision =
      ((compareOverall [([⟨"ga".data, "b".data⟩],
        ["ga".data])]).matchTotal : ℚ) /
        (compareOverall [([⟨"ga".data, "b".data⟩], ["ga".data])]).foundTotal) ∧
    ((compareOverall []).precision = 0) ∧
    ((compareOverall []).recallQ = 0) ∧
    ((compareOverall []).f1 = 0) := by
  obtain ⟨p1, _, r1, _, f1pos, _, op1, _, _, _, _, _⟩ :=
    c2_metrics [⟨"ga".data, "b".data⟩] ["ga".data]
      [([⟨"ga".data, "b".data⟩], ["ga".data])]
  obtain ⟨_, p0, _, r0, _, f0, _, op0, _, or0, _, of0⟩ :=
    c2_metrics ([] : List GTRecord) ([] : List (List Char))
      ([] : List (List GTRecord × List (List Char)))
  have hp := p1 (by decide)
  have hr := r1 (by decide)
  have hl : (compareFileResults [⟨"ga".data, "b".data⟩]
      ["ga".data]).matchList.length = 1 := by decide
  have hp0 := p0 rfl
  have hr0 := r0 rfl
  refine ⟨hp, hr, f1pos ?_, hp0, hr0, f0 (by rw [hp0, hr0]; norm_num),
    op1 (by decide), op0 rfl, or0 rfl, of0 (by rw [op0 rfl, or0 rfl]; norm_num)⟩
  rw [hp, hr, hl]
  norm_num

/-! ## Geocoding service (`frontend/utils/geocoding.js`)

`GeocodingService` keeps `lastRequestTime` and `requestCount`; `rateLimit`
compares `Date.now()` with `lastRequestTime` and sleeps until at least 1000 ms
have passed; `geocodeAddress` awaits `rateLimit`, then always issues one
provider `fetch` and converts the response.  Time is modelled by an explicit
natural-number clock (milliseconds).  `delay(ms)` sleeps **at least** `ms`;
the nonnegative `overrun` input of each call absorbs any extra time taken by
the timer and by the second `Date.now()` read.  The `gap` input is the time
that passes between the previous provider request and this call reaching
`rateLimit`.  A JavaScript number that may be `NaN` is `Option ℚ` with `none`
for `NaN`.  The response fields not used by any claim (`boundingBox`,
`metadata`) are omitted. -/

/-- One parsed Nominatim record, after `parseFloat` of `lon`/`lat` and with
the raw `display_name` and `importance` fields. -/
structure NominatimRec where
  lon : Option ℚ
  lat : Option ℚ
  display_name : Option String
  importance : Option ℚ
deriving DecidableEq, Repr

/-- Outcome of the `fetch`/`response.json()` pair inside `geocodeAddress`:
a network error thrown by `fetch`, a parse error thrown by `json()`, a
parsed value that is not a nonempty-capable array, or a parsed array. -/
inductive FetchOutcome where
  | netError (msg : String)
  | jsonError (msg : String)
  | jsonNonList
  | jsonList (data : List NominatimRec)
deriving DecidableEq, Repr

/-- The object resolved by `geocodeAddress`: either
`{success: true, coordinates: [lng, lat], displayName, confidence}` or
`{success: false, error, originalAddress}`. -/
inductive GeoResult where
  | ok (coordinates : Option ℚ × Option ℚ) (displayName : Option String)
      (confidence : ℚ)
  | fail (error : String) (originalAddress : String)
deriving DecidableEq, Repr

/-- The `success` field of the resolved object. -/
def GeoResult.success : GeoResult → Bool
  | .ok _ _ _ => true
  | .fail _ _ => false

/-- JavaScript `x || d` on a possibly-`NaN` number `x`: both `NaN` and `0`
are falsy and give `d`. -/
def jsOrDefault (x : Option ℚ) (d : ℚ) : ℚ :=
  match x with
  | none => d
  | some q => if q = 0 then d else q

/-- `geocodeAddress` after `rateLimit`: the whole `try` block, with the
provider interaction abstracted into its outcome.  Every path returns a
result object; no outcome escapes as an exception. -/
def geocodeAddress (address : String) (outcome : FetchOutcome) : GeoResult :=
  match outcome with
  | .netError msg => .fail msg address
  | .jsonError msg => .fail msg address
  | .jsonNonList => .fail "No results found" address
  | .jsonList [] => .fail "No results found" address
  | .jsonList (r :: _) =>
      .ok (r.lon, r.lat) r.display_name (jsOrDefault r.importance (1 / 2))

/-- Mutable service state: `lastRequestTime` and `requestCount`. -/
structure GeoState where
  lastRequestTime : ℕ
  requestCount : ℕ
deriving DecidableEq, Repr

/-- `rateLimit` as a state transition: entered at wall time `now`, it sleeps
(at least) up to `lastRequestTime + 1000`, records the new `Date.now()` as
`lastRequestTime`, and increments `requestCount`.  Returns the new state and
the recorded time, which is when the following `fetch` is issued. -/
def rateLimitRun (st : GeoState) (now overrun : ℕ) : GeoState × ℕ :=
  let t :=
    (if now < st.lastRequestTime + 1000 then st.lastRequestTime + 1000
      else now) + overrun
  (⟨t, st.requestCount + 1⟩, t)

/-- Environment of a single `geocodeAddress` call inside `geocodeMultiple`:
wall time consumed before the call reaches `rateLimit`, timer overrun, and
the provider outcome. -/
structure CallEnv where
  gap : ℕ
  overrun : ℕ
  outcome : FetchOutcome
deriving DecidableEq, Repr

/-- The sequential `for` loop of `geocodeMultiple`: each address awaits
`rateLimit`, then issues exactly one provider request.  Returns the final
state, the list of (request time, result) pairs, and the provider-request
log (which addresses were actually fetched, in order). -/
def geocodeMultipleRun (st : GeoState) (clock : ℕ) :
    List (String × CallEnv) → GeoState × List (ℕ × GeoResult) × List String
  | [] => (st, [], [])
  | (addr, env) :: rest =>
      let now := clock + env.gap
      let rl := rateLimitRun st now env.overrun
      let res := geocodeAddress addr env.outcome
      let tail := geocodeMultipleRun rl.1 rl.2 rest
      (tail.1, (rl.2, res) :: tail.2.1, addr :: tail.2.2)

/-- The provider request times of a batch, in order. -/
def requestTimes (st : GeoState) (clock : ℕ)
    (items : List (String × CallEnv)) : List ℕ :=
  (geocodeMultipleRun st clock items).2.1.map Prod.fst

/-- The `valid` verdict of `validateCoordinates`.  The input is `none` when
the JavaScript argument is not an array of length 2; a component is
`.nonNum` when its `typeof` is not `number`; `NaN` components are numbers.
`Math.abs(NaN) > 90` is false in JavaScript, hence the `none` case of the
absolute-value test. -/
inductive JsValue where
  | num (q : Option ℚ)
  | nonNum
deriving DecidableEq, Repr

/-- JavaScript `Math.abs(x) > bound` for a possibly-`NaN` `x`. -/
def jsAbsGT (x : Option ℚ) (bound : ℚ) : Bool :=
  match x with
  | none => false
  | some q => bound < |q|

/-- `validateCoordinates` (geocoding.js lines 241–285), reduced to its
`valid` field. -/
def validateCoordinates (input : Option (JsValue × JsValue)) : Bool :=
  match input with
  | none => false
  | some (.num lng, .num lat) => !(jsAbsGT lat 90) && !(jsAbsGT lng 180)
  | some _ => false

/-! ### Claims C3, C4, C5, C10 -/

lemma requestTimes_cons (st : GeoState) (clock : ℕ) (a : String) (e : CallEnv)
    (rest : List (String × CallEnv)) :
    requestTimes st clock ((a, e) :: rest) =
      ((if clock + e.gap < st.lastRequestTime + 1000 then
          st.lastRequestTime + 1000 else clock + e.gap) + e.overrun) ::
        requestTimes
          ⟨(if clock + e.gap < st.lastRequestTime + 1000 then
              st.lastRequestTime + 1000 else clock + e.gap) + e.overrun,
            st.requestCount + 1⟩
          ((if clock + e.gap < st.lastRequestTime + 1000 then
              st.lastRequestTime + 1000 else clock + e.gap) + e.overrun)
          rest := by
  simp [requestTimes, geocodeMultipleRun, rateLimitRun]

lemma requestTimes_head_ge (items : List (String × CallEnv)) (st : GeoState)
    (clock t0 : ℕ) (h : (requestTimes st clock items).head? = some t0) :
    st.lastRequestTime + 1000 ≤ t0 := by
  match items with
  | [] => simp [requestTimes, geocodeMultipleRun] at h
  | (a, e) :: rest =>
      rw [requestTimes_cons] at h
      simp only [List.head?_cons, Option.some.injEq] at h
      subst h
      split
      · omega
      · omega

lemma requestTimes_chain (items : List (String × CallEnv)) (st : GeoState)
    (clock : ℕ) :
    List.Chain' (fun a b => a + 1000 ≤ b) (requestTimes st clock items) := by
  induction items generalizing st clock with
  | nil => simp [requestTimes, geocodeMultipleRun]
  | cons it rest ih =>
      obtain ⟨a, e⟩ := it
      rw [requestTimes_cons]
      refine List.chain'_cons'.mpr ⟨?_, ih _ _⟩
      intro b hb
      have := requestTimes_head_ge rest _ _ b hb
      simpa using this

lemma requestTimes_length (items : List (String × CallEnv)) (st : GeoState)
    (clock : ℕ) : (requestTimes st clock items).length = items.length := by
  induction items generalizing st clock with
  | nil => rfl
  | cons it rest ih =>
      obtain ⟨a, e⟩ := it
      rw [requestTimes_cons]
      simp [ih]

lemma chain_elapsed (l : List ℕ)
    (hc : List.Chain' (fun a b => a + 1000 ≤ b) l) :
    ∀ t0 tN, l.head? = some t0 → l.getLast? = some tN →
      t0 + (l.length - 1) * 1000 ≤ tN := by
  induction l with
  | nil => intro t0 tN h; simp at h
  | cons t1 rest ih =>
      intro t0 tN h0 hN
      simp only [List.head?_cons, Option.some.injEq] at h0
      subst h0
      match rest, hc, hN with
      | [], _, hN =>
          simp only [List.getLast?_singleton, Option.some.injEq] at hN
          simp only [List.length_cons, List.length_nil]
          omega
      | t2 :: rest2, hc, hN =>
          have h12 : t1 + 1000 ≤ t2 := (List.chain'_cons.mp hc).1
          have hc2 : List.Chain' (fun a b => a + 1000 ≤ b) (t2 :: rest2) :=
            (List.chain'_cons.mp hc).2
          rw [List.getLast?_cons_cons] at hN
          have := ih hc2 t2 tN rfl hN
          simp only [List.length_cons] at this ⊢
          omega

/-- C3: in any sequential batch through one `GeocodingService`, each provider
request fires at least 1000 ms after the previous one, so the wall time from
the first to the last of the N requests is at least (N−1)·1000 ms. -/
theorem c3_rate_limit_spacing (st : GeoState) (clock : ℕ)
    (items : List (String × CallEnv)) :
    List.Chain' (fun a b => a + 1000 ≤ b) (requestTimes st clock items) ∧
    (∀ t0 tN, (requestTimes st clock items).head? = some t0 →
      (requestTimes st clock items).getLast? = some tN →
      t0 + (items.length - 1) * 1000 ≤ tN) := by
  refine ⟨requestTimes_chain items st clock, fun t0 tN h0 hN => ?_⟩
  have := chain_elapsed _ (requestTimes_chain items st clock) t0 tN h0 hN
  rwa [requestTimes_length] at this

/-- Witness for C3: a two-request batch entered at time 0 fires at 1000 and
2000, and 1000 + (2−1)·1000 ≤ 2000. -/
theorem c3_rate_limit_spacing_witness :
    List.Chain' (fun a b => a + 1000 ≤ b)
      (requestTimes ⟨0, 0⟩ 0 [("a", ⟨0, 0, .jsonNonList⟩),
        ("b", ⟨0, 0, .jsonNonList⟩)]) ∧
    1000 + ((([("a", (⟨0, 0, .jsonNonList⟩ : CallEnv)),
        ("b", ⟨0, 0, .jsonNonList⟩)] : List (String × CallEnv)).length - 1) *
      1000) ≤ 2000 := by
  have h := c3_rate_limit_spacing ⟨0, 0⟩ 0
    [("a", ⟨0, 0, .jsonNonList⟩), ("b", ⟨0, 0, .jsonNonList⟩)]
  exact ⟨h.1, h.2 1000 2000 (by decide) (by decide)⟩

lemma geocodeMultipleRun_log (items : List (String × CallEnv)) (st : GeoState)
    (clock : ℕ) :
    (geocodeMultipleRun st clock items).2.2 = items.map Prod.fst := by
  induction items generalizing st clock with
  | nil => rfl
  | cons it rest ih =>
      obtain ⟨a, e⟩ := it
      simp [geocodeMultipleRun, ih]

lemma geocodeMultipleRun_count (items : List (String × CallEnv))
    (st : GeoState) (clock : ℕ) :
    (geocodeMultipleRun st clock items).1.requestCount =
      st.requestCount + items.length := by
  induction items generalizing st clock with
  | nil => rfl
  | cons it rest ih =>
      obtain ⟨a, e⟩ := it
      simp only [geocodeMultipleRun, ih, rateLimitRun, List.length_cons]
      omega

/-- C4, counterexample: submitting the same query twice issues two provider
requests and passes rate limiting twice; under the claim the second call
would be answered from a cache, with at most one provider request. -/
theorem c4_counterexample :
    (geocodeMultipleRun ⟨0, 0⟩ 0
      [("350 5th Ave", ⟨0, 0, .jsonNonList⟩),
        ("350 5th Ave", ⟨0, 0, .jsonNonList⟩)]).2.2 =
      ["350 5th Ave", "350 5th Ave"] ∧
    (geocodeMultipleRun ⟨0, 0⟩ 0
      [("350 5th Ave", ⟨0, 0, .jsonNonList⟩),
        ("350 5th Ave", ⟨0, 0, .jsonNonList⟩)]).1.requestCount = 2 ∧
    ¬ ((geocodeMultipleRun ⟨0, 0⟩ 0
      [("350 5th Ave", ⟨0, 0, .jsonNonList⟩),
        ("350 5th Ave", ⟨0, 0, .jsonNonList⟩)]).2.2.length ≤ 1) := by
  refine ⟨by decide, by decide, by decide⟩

/-- C4, amended: `GeocodingService` keeps no cache; every `geocodeAddress`
call, including a repeat of an identical query, passes through `rateLimit`
and issues its own provider request. -/
theorem c4_no_cache (st : GeoState) (clock : ℕ)
    (items : List (String × CallEnv)) :
    (geocodeMultipleRun st clock items).2.2 = items.map Prod.fst ∧
    (geocodeMultipleRun st clock items).1.requestCount =
      st.requestCount + items.length :=
  ⟨geocodeMultipleRun_log items st clock,
    geocodeMultipleRun_count items st clock⟩

/-- C5, counterexample: a provider response with longitude 999 is emitted to
the caller as a successful result; it is not rejected, although 999 is out
of range. -/
theorem c5_counterexample :
    geocodeAddress "Empire State Building"
      (.jsonList [⟨some 999, some 0, none, none⟩]) =
      .ok (some 999, some 0) none (1 / 2) ∧
    (geocodeAddress "Empire State Building"
      (.jsonList [⟨some 999, some 0, none, none⟩])).success = true ∧
    ¬ ((999 : ℚ) ≤ 180) := by
  refine ⟨rfl, rfl, by norm_num⟩

/-- C5, amended: `validateCoordinates` does verify longitude ∈ [−180,180]
and latitude ∈ [−90,90], but `geocodeAddress` never invokes it: a nonempty
provider response is emitted with its coordinates passed through unchanged,
whatever their values. -/
theorem c5_validate_ranges :
    (∀ lng lat : ℚ,
      validateCoordinates (some (.num (some lng), .num (some lat))) = true ↔
        |lat| ≤ 90 ∧ |lng| ≤ 180) ∧
    (∀ (addr : String) (rec : NominatimRec) (rest : List NominatimRec),
      geocodeAddress addr (.jsonList (rec :: rest)) =
        .ok (rec.lon, rec.lat) rec.display_name
          (jsOrDefault rec.importance (1 / 2))) := by
  refine ⟨fun lng lat => ?_, fun addr rec rest => rfl⟩
  simp [validateCoordinates, jsAbsGT, not_lt]

/-- C10: `geocodeAddress` is total over every provider outcome — network
error, JSON parse error, non-array JSON, empty results, nonempty results —
always resolving to a result object with a boolean `success`; on success it
carries the `[lng, lat]` pair, the display name, and a confidence that
defaults to 0.5 when `importance` is missing or zero; on failure it carries
an error message and the original address. -/
theorem c10_geocode_total :
    (∀ addr msg, geocodeAddress addr (.netError msg) = .fail msg addr) ∧
    (∀ addr msg, geocodeAddress addr (.jsonError msg) = .fail msg addr) ∧
    (∀ addr, geocodeAddress addr .jsonNonList =
      .fail "No results found" addr) ∧
    (∀ addr, geocodeAddress addr (.jsonList []) =
      .fail "No results found" addr) ∧
    (∀ (addr : String) (r : NominatimRec) (rest : List NominatimRec),
      geocodeAddress addr (.jsonList (r :: rest)) =
        .ok (r.lon, r.lat) r.display_name
          (jsOrDefault r.importance (1 / 2))) ∧
    (∀ c d conf, (GeoResult.ok c d conf).success = true) ∧
    (∀ e o, (GeoResult.fail e o).success = false) ∧
    (∀ d : ℚ, jsOrDefault none d = d) ∧
    (∀ d : ℚ, jsOrDefault (some 0) d = d) ∧
    (∀ (q d : ℚ), q ≠ 0 → jsOrDefault (some q) d = q) := by
  refine ⟨fun _ _ => rfl, fun _ _ => rfl, fun _ => rfl, fun _ => rfl,
    fun _ _ _ => rfl, fun _ _ _ => rfl, fun _ _ => rfl, fun _ => rfl,
    fun d => ?_, fun q d hq => ?_⟩
  · simp [jsOrDefault]
  · simp [jsOrDefault, hq]

/-- Witness for C10: a nonzero importance of 2 is kept as the confidence. -/
theorem c10_geocode_total_witness : jsOrDefault (some 2) (1 / 2) = 2 :=
  c10_geocode_total.2.2.2.2.2.2.2.2.2 2 (1 / 2) (by norm_num)

/-! ## OCR processor (`OCRProcessor` component)

`processFiles` in frontend mode loops over the uploaded files; each file is
OCRed by `processFrontendOCR`, whose `try` block rethrows every failure as
`new Error("OCR processing failed: " + message)`; the per-file `catch` in
`processFiles` turns that into `{filename, success: false, error}` and the
loop continues.  `processOCRResults` then pools the extracted location
strings of the successful entries and deduplicates them case-insensitively
with `filter`/`findIndex`. -/

/-- The `extracted_info` object of a successful per-file result. -/
structure ExtractedInfo where
  locations : List (List Char)
  addresses : List (List Char)
  business_names : List (List Char)
deriving DecidableEq, Repr

/-- A successful per-file result (the fields the batch logic reads). -/
structure SuccessResult where
  filename : String
  raw_text : List Char
  cleaned_text : List Char
  confidence : ℚ
  extracted_info : ExtractedInfo
deriving DecidableEq, Repr

/-- Outcome of `processFrontendOCR` for one file: a result, or a thrown
error whose message the surrounding `catch` reads (`processFrontendOCR`
rethrows every internal failure with the prefix below). -/
inductive FileOutcome where
  | ok (r : SuccessResult)
  | err (msg : String)
deriving DecidableEq, Repr

/-- One entry of the `results` array built by `processFiles`. -/
inductive ResultEntry where
  | ok (r : SuccessResult)
  | failed (filename : String) (error : String)
deriving DecidableEq, Repr

/-- The `success` field of a result entry. -/
def ResultEntry.success : ResultEntry → Bool
  | .ok _ => true
  | .failed _ _ => false

/-- The frontend-mode `for` loop of `processFiles`: every file yields one
entry; a failure is caught per-file and recorded, never aborting the loop. -/
def processFilesFrontend (files : List (String × FileOutcome)) :
    List ResultEntry :=
  files.map (fun fo =>
    match fo with
    | (_, .ok r) => ResultEntry.ok r
    | (n, .err m) => ResultEntry.failed n ("OCR processing failed: " ++ m))

/-- One pooled location `{name, type, source}` in `processOCRResults`. -/
structure LocEntry where
  name : List Char
  ltype : List Char
  source : String
deriving DecidableEq, Repr

/-- The per-entry contribution to `allLocations`: successful entries
contribute their locations, addresses and business names (tagged
`location` / `address` / `business`); failed entries contribute nothing. -/
def entryLocations : ResultEntry → List LocEntry
  | .failed _ _ => []
  | .ok s =>
      s.extracted_info.locations.map
          (fun l => ⟨l, "location".data, s.filename⟩) ++
        s.extracted_info.addresses.map
          (fun a => ⟨a, "address".data, s.filename⟩) ++
        s.extracted_info.business_names.map
          (fun b => ⟨b, "business".data, s.filename⟩)

/-- `allLocations` of `processOCRResults`. -/
def collectLocations (results : List ResultEntry) : List LocEntry :=
  (results.map entryLocations).flatten

/-- The dedup step of `processOCRResults`:
`allLocations.filter((location, index, self) =>
  index === self.findIndex(l => l.name.toLowerCase() ===
    location.name.toLowerCase()))`. -/
def dedupLocations (l : List LocEntry) : List LocEntry :=
  (l.enum.filter (fun p =>
    l.findIdx (fun x => jsToLower x.name == jsToLower p.2.name) == p.1)).map
    Prod.snd

/-- The `locations` field of the object returned by `processOCRResults`. -/
def processOCRResultsLocations (results : List ResultEntry) : List LocEntry :=
  dedupLocations (collectLocations results)

/-! ### Claims C7 and C9 -/

lemma enum_pairwise_fst_lt (l : List LocEntry) :
    l.enum.Pairwise (fun p q => p.1 < q.1) := by
  have h : List.Pairwise (· < ·) (l.enum.map Prod.fst) := by
    rw [List.enum_map_fst]
    exact List.pairwise_lt_range _
  exact (List.pairwise_map.mp h)

lemma dedupLocations_pairwise (l : List LocEntry) :
    (dedupLocations l).Pairwise
      (fun a b => jsToLower a.name ≠ jsToLower b.name) := by
  unfold dedupLocations
  rw [List.pairwise_map]
  have base : (l.enum.filter (fun p =>
      l.findIdx (fun x => jsToLower x.name == jsToLower p.2.name) ==
        p.1)).Pairwise (fun p q => p.1 < q.1) :=
    List.Pairwise.sublist (List.filter_sublist _) (enum_pairwise_fst_lt l)
  refine base.imp_of_mem ?_
  intro p q hp hq hlt heq
  have hp2 := List.of_mem_filter hp
  have hq2 := List.of_mem_filter hq
  simp only [beq_iff_eq] at hp2 hq2
  have hfun : (fun x : LocEntry => jsToLower x.name == jsToLower p.2.name) =
      (fun x : LocEntry => jsToLower x.name == jsToLower q.2.name) := by
    funext x
    rw [heq]
  rw [hfun, hq2] at hp2
  omega

/-- C7: the deduplicated `locations` list returned by `processOCRResults`
never contains two entries whose name texts are case-insensitively equal. -/
theorem c7_dedup_invariant (results : List ResultEntry) :
    (processOCRResultsLocations results).Pairwise
      (fun a b => jsToLower a.name ≠ jsToLower b.name) :=
  dedupLocations_pairwise (collectLocations results)

/-- C9: in frontend mode a per-file failure never aborts the batch: the
results list has one well-formed entry per input file, in order; a failed
file's entry has `success = false` and a nonempty prefixed error message;
a successful file's result is passed through untouched. -/
theorem c9_batch_isolation (files : List (String × FileOutcome)) :
    (processFilesFrontend files).length = files.length ∧
    (∀ (i : ℕ) (h1 : i < files.length)
        (h2 : i < (processFilesFrontend files).length),
      (processFilesFrontend files)[i] =
        (match files[i] with
          | (_, .ok r) => ResultEntry.ok r
          | (n, .err m) =>
              ResultEntry.failed n ("OCR processing failed: " ++ m))) ∧
    (∀ n m, (ResultEntry.failed n m).success = false) ∧
    (∀ r, (ResultEntry.ok r).success = true) ∧
    (∀ m : String, "OCR processing failed: " ++ m ≠ "") := by
  refine ⟨List.length_map _ _, ?_, fun _ _ => rfl, fun _ => rfl, fun m h => ?_⟩
  · intro i h1 h2
    simp only [processFilesFrontend, List.getElem_map]
  · have hlen := congrArg String.length h
    rw [String.length_append] at hlen
    have h23 : ("OCR processing failed: " : String).length = 23 := rfl
    have h0 : ("" : String).length = 0 := rfl
    omega

/-- Witness for C9: a two-file batch in which the second file fails still
returns two entries, the second marked failed with a nonempty reason. -/
theorem c9_batch_isolation_witness :
    (processFilesFrontend [("a.png", .ok ⟨"a.png", [], [], 1, ⟨[], [], []⟩⟩),
      ("b.png", .err "image decode failed")]).length =
      ([("a.png", FileOutcome.ok ⟨"a.png", [], [], 1, ⟨[], [], []⟩⟩),
        ("b.png", FileOutcome.err "image decode failed")] :
        List (String × FileOutcome)).length ∧
    (processFilesFrontend [("a.png", .ok ⟨"a.png", [], [], 1, ⟨[], [], []⟩⟩),
      ("b.png", .err "image decode failed")])[1]? =
      some (ResultEntry.failed "b.png"
        ("OCR processing failed: " ++ "image decode failed")) ∧
    (ResultEntry.failed "b.png"
      ("OCR processing failed: " ++ "image decode failed")).success = false ∧
    ("OCR processing failed: " ++ "image decode failed" : String) ≠ "" := by
  have h := c9_batch_isolation
    [("a.png", .ok ⟨"a.png", [], [], 1, ⟨[], [], []⟩⟩),
      ("b.png", .err "image decode failed")]
  have h2 := h.2.1 1 (by decide) (by rw [h.1]; decide)
  refine ⟨h.1, ?_, h.2.2.1 "b.png" _, h.2.2.2.2 "image decode failed"⟩
  rw [List.getElem?_eq_getElem (by rw [h.1]; decide), h2]
  rfl

/-! ### Claim C6

`convertOCRResultsToMapFormat` (OCRTestPanel) turns every pooled location
into a map record with `coordinates: null` and `needs_geocoding: true`;
the GeoJSON export button of `OCRAnalysisPanel` writes every location as a
`Point` feature with `coordinates: [0, 0]` and `needs_geocoding: true`. -/

/-- One record of the map format produced by `convertOCRResultsToMapFormat`. -/
structure MapLocation where
  id : String
  name : List Char
  mtype : List Char
  address : List Char
  coordinates : Option (ℚ × ℚ)
  extractedFrom : String
  confidence : ℚ
  needs_geocoding : Bool
deriving DecidableEq, Repr, Inhabited

/-- The `type` relabelling `'business' ↦ 'Business'`, `'address' ↦
'Address'`, else `'Location'`. -/
def displayType (t : List Char) : List Char :=
  if t = "business".data then "Business".data
  else if t = "address".data then "Address".data
  else "Location".data

/-- `convertOCRResultsToMapFormat` over the pooled `locations` list. -/
def convertOCRResultsToMapFormat (locations : List LocEntry) :
    List MapLocation :=
  locations.enum.map (fun p =>
    ⟨"ocr_" ++ toString p.1, p.2.name, displayType p.2.ltype, p.2.name, none,
      (if p.2.source = "" then "OCR" else p.2.source), 4 / 5, true⟩)

/-- One GeoJSON `Point` feature as written by the export button. -/
structure GeoFeature where
  fid : ℕ
  coordinates : ℚ × ℚ
  name : List Char
  ftype : List Char
  confidence : ℚ
  needs_geocoding : Bool
deriving DecidableEq, Repr, Inhabited

/-- An exported location `{name, type, confidence}` from
`extracted_content.locations`. -/
structure ExportLoc where
  name : List Char
  ltype : List Char
  confidence : ℚ
deriving DecidableEq, Repr

/-- The `features` array of the GeoJSON download
(`OCRAnalysisPanel.jsx` lines 546–569): geometry coordinates are the
placeholder `[0, 0]` for every location. -/
def geoJSONFeatures (locations : List ExportLoc) : List GeoFeature :=
  locations.enum.map (fun p =>
    ⟨p.1, (0, 0), p.2.name, p.2.ltype, p.2.confidence, true⟩)

/-- C6, counterexample: a batch with one extracted location emits a map
record whose coordinates are `null` and a GeoJSON feature whose coordinates
are the zero placeholder `[0, 0]` — both forbidden by the claim. -/
theorem c6_counterexample :
    (convertOCRResultsToMapFormat
      [⟨"Central Park".data, "location".data, "a.png"⟩]).map
        (fun m => m.coordinates) = [none] ∧
    (geoJSONFeatures [⟨"Central Park".data, "location".data, 9 / 10⟩]).map
      (fun f => f.coordinates) = [((0 : ℚ), (0 : ℚ))] := by
  constructor
  · rfl
  · rfl

/-- C6, amended: nothing is dropped for missing coordinates; instead every
location is emitted with a placeholder — `null` coordinates in the map
format, `[0, 0]` in the GeoJSON export — marked `needs_geocoding = true`. -/
theorem c6_placeholder_coordinates (locations : List LocEntry)
    (exported : List ExportLoc) :
    (convertOCRResultsToMapFormat locations).length = locations.length ∧
    (∀ m, m ∈ convertOCRResultsToMapFormat locations →
      m.coordinates = none ∧ m.needs_geocoding = true) ∧
    (geoJSONFeatures exported).length = exported.length ∧
    (∀ f, f ∈ geoJSONFeatures exported →
      f.coordinates = (0, 0) ∧ f.needs_geocoding = true) := by
  refine ⟨?_, ?_, ?_, ?_⟩
  · simp [convertOCRResultsToMapFormat]
  · intro m hm
    simp only [convertOCRResultsToMapFormat, List.mem_map] at hm
    obtain ⟨p, _, rfl⟩ := hm
    exact ⟨rfl, rfl⟩
  · simp [geoJSONFeatures]
  · intro f hf
    simp only [geoJSONFeatures, List.mem_map] at hf
    obtain ⟨p, _, rfl⟩ := hf
    exact ⟨rfl, rfl⟩

/-- Witness for C6 at a concrete batch: one location record and one export
feature, with their placeholder fields. -/
theorem c6_placeholder_coordinates_witness :
    (convertOCRResultsToMapFormat
      [⟨"Pike Place Market".data, "business".data, "b.png"⟩]).length = 1 ∧
    ((convertOCRResultsToMapFormat
      [⟨"Pike Place Market".data, "business".data, "b.png"⟩]).head!.coordinates
        = none ∧
      (convertOCRResultsToMapFormat
        [⟨"Pike Place Market".data, "business".data,
          "b.png"⟩]).head!.needs_geocoding = true) ∧
    (geoJSONFeatures [⟨"Pike Place Market".data, "business".data,
      1 / 2⟩]).length = 1 ∧
    ((geoJSONFeatures [⟨"Pike Place Market".data, "business".data,
        1 / 2⟩]).head!.coordinates = (0, 0) ∧
      (geoJSONFeatures [⟨"Pike Place Market".data, "business".data,
        1 / 2⟩]).head!.needs_geocoding = true) := by
  have h := c6_placeholder_coordinates
    [⟨"Pike Place Market".data, "business".data, "b.png"⟩]
    [⟨"Pike Place Market".data, "business".data, 1 / 2⟩]
  refine ⟨h.1, h.2.1 _ ?_, h.2.2.1, h.2.2.2 _ ?_⟩
  · exact List.head!_mem_self (by simp [convertOCRResultsToMapFormat])
  · exact List.head!_mem_self (by simp [geoJSONFeatures])

/-! ## Text normalizer (`cleanAndDenoiseText`, OCRProcessor lines 227–260)

The five regex steps are embedded as character-list transducers, in source
order: (1) `\s+ → ' '`; (2) the OCR-confusion table applied with `\b…\b`
word boundaries (JavaScript `\w = [A-Za-z0-9_]`, boundaries evaluated on the
string being scanned, replacements not rescanned); (3) `\r\n → \n`,
`\r → \n`; (4) `([.!?])\1+ → $1`; (5) `\s+([.!?,:;]) → $1` and
`([.!?])\s*([A-Z]) → $1 $2`; then `trim()`. -/

/-- JavaScript `\s` on the character set this repository's strings use. -/
def jsWs (c : Char) : Bool :=
  c = ' ' || c = '\t' || c = '\n' || c = '\r' ||
    c = Char.ofNat 11 || c = Char.ofNat 12 || c = Char.ofNat 160

/-- Step 1, `replace(/\s+/g, ' ')`: each maximal whitespace run becomes one
space.  The flag records whether the scanner is inside a run. -/
def collapseWsAux : Bool → List Char → List Char
  | _, [] => []
  | inRun, c :: cs =>
      if jsWs c then
        if inRun then collapseWsAux true cs
        else ' ' :: collapseWsAux true cs
      else c :: collapseWsAux false cs

/-- Step 1 entry point. -/
def collapseWs (s : List Char) : List Char :=
  collapseWsAux false s

/-- JavaScript `\w`. -/
def isWordChar (c : Char) : Bool :=
  ('a' ≤ c && c ≤ 'z') || ('A' ≤ c && c ≤ 'Z') ||
    ('0' ≤ c && c ≤ '9') || c = '_'

/-- `\b` between two positions: wordness differs, outside counts non-word. -/
def bndOk (prev cur : Option Char) : Bool :=
  (match prev with | none => false | some p => isWordChar p) !=
    (match cur with | none => false | some c => isWordChar c)

/-- `replace(new RegExp("\\b" + t + "\\b", "g"), rep)` for a one-character
token: scans left to right, boundaries read from the original characters. -/
def replaceTok1 (t : Char) (rep : List Char) :
    Option Char → List Char → List Char
  | _, [] => []
  | prev, c :: cs =>
      if c == t && bndOk prev (some c) && bndOk (some c) cs.head? then
        rep ++ replaceTok1 t rep (some c) cs
      else c :: replaceTok1 t rep (some c) cs

/-- The same for a two-character token `t1 t2`. -/
def replaceTok2 (t1 t2 : Char) (rep : List Char) :
    Option Char → List Char → List Char
  | _, [] => []
  | _, [c] => [c]
  | prev, c1 :: c2 :: cs =>
      if c1 == t1 && c2 == t2 && bndOk prev (some c1) &&
          bndOk (some c2) cs.head? then
        rep ++ replaceTok2 t1 t2 rep (some c2) cs
      else c1 :: replaceTok2 t1 t2 rep (some c1) (c2 :: cs)

/-- Step 2: the `ocrFixes` table, in object-literal order. -/
def applyOcrFixes (s : List Char) : List Char :=
  replaceTok1 '；' ";".data none
    (replaceTok1 '：' ":".data none
      (replaceTok1 '。' ".".data none
        (replaceTok1 '，' ",".data none
          (replaceTok2 'i' 'i' "ll".data none
            (replaceTok2 'v' 'v' "w".data none
              (replaceTok2 'r' 'n' "m".data none
                (replaceTok1 'S' "5".data none
                  (replaceTok1 'I' "1".data none
                    (replaceTok1 'l' "1".data none
                      (replaceTok1 'O' "0".data none s))))))))))

/-- Step 3a, `replace(/\r\n/g, '\n')`. -/
def fixCrlf : List Char → List Char
  | [] => []
  | [c] => [c]
  | c1 :: c2 :: cs =>
      if c1 = '\r' && c2 = '\n' then '\n' :: fixCrlf cs
      else c1 :: fixCrlf (c2 :: cs)

/-- Step 3b, `replace(/\r/g, '\n')`. -/
def crToLf (s : List Char) : List Char :=
  s.map (fun c => if c = '\r' then '\n' else c)

/-- The class `[.!?]`. -/
def isSentPunct (c : Char) : Bool :=
  c = '.' || c = '!' || c = '?'

/-- Step 4, `replace(/([.!?])\1+/g, '$1')`: adjacent repeats of the same
sentence punctuation collapse to one. -/
def dedupPunctAux : Option Char → List Char → List Char
  | _, [] => []
  | prev, c :: cs =>
      if isSentPunct c && prev == some c then dedupPunctAux (some c) cs
      else c :: dedupPunctAux (some c) cs

/-- Step 4 entry point. -/
def dedupPunct (s : List Char) : List Char :=
  dedupPunctAux none s

/-- The class `[.!?,:;]`. -/
def isPunct5 (c : Char) : Bool :=
  c = '.' || c = '!' || c = '?' || c = ',' || c = ':' || c = ';'

/-- Step 5a, `replace(/\s+([.!?,:;])/g, '$1')`: a pending whitespace run is
dropped when the next character is punctuation, kept otherwise. -/
def stripWsBeforePunctAux (pending : List Char) : List Char → List Char
  | [] => pending.reverse
  | c :: cs =>
      if jsWs c then stripWsBeforePunctAux (c :: pending) cs
      else if isPunct5 c then c :: stripWsBeforePunctAux [] cs
      else pending.reverse ++ (c :: stripWsBeforePunctAux [] cs)

/-- Step 5a entry point. -/
def stripWsBeforePunct (s : List Char) : List Char :=
  stripWsBeforePunctAux [] s

/-- The class `[A-Z]`. -/
def isUpperAZ (c : Char) : Bool :=
  'A' ≤ c && c ≤ 'Z'

/-- Step 5b, `replace(/([.!?])\s*([A-Z])/g, '$1 $2')`: after sentence
punctuation, optional whitespace followed by a capital is normalized to a
single space; on a failed attempt the scanner re-examines the failing
character (`\s` and `[A-Z]` are disjoint, so regex backtracking cannot
succeed with a shorter `\s*`). -/
def spaceAfterPunctAux : Option (Char × List Char) → List Char → List Char
  | none, [] => []
  | some (p, ws), [] => p :: ws.reverse
  | none, c :: cs =>
      if isSentPunct c then spaceAfterPunctAux (some (c, [])) cs
      else c :: spaceAfterPunctAux none cs
  | some (p, ws), c :: cs =>
      if jsWs c then spaceAfterPunctAux (some (p, c :: ws)) cs
      else if isUpperAZ c then p :: ' ' :: c :: spaceAfterPunctAux none cs
      else if isSentPunct c then
        p :: (ws.reverse ++ spaceAfterPunctAux (some (c, [])) cs)
      else p :: (ws.reverse ++ (c :: spaceAfterPunctAux none cs))

/-- Step 5b entry point. -/
def spaceAfterPunct (s : List Char) : List Char :=
  spaceAfterPunctAux none s

/-- Left half of `trim()`. -/
def trimLeft (s : List Char) : List Char :=
  s.dropWhile jsWs

/-- Right half of `trim()`. -/
def trimRight : List Char → List Char
  | [] => []
  | c :: cs =>
      match trimRight cs with
      | [] => if jsWs c then [] else [c]
      | r => c :: r

/-- `trim()`. -/
def jsTrim (s : List Char) : List Char :=
  trimLeft (trimRight s)

/-- `cleanAndDenoiseText`, steps 1–5 then `trim`, in source order. -/
def cleanAndDenoiseText (s : List Char) : List Char :=
  jsTrim (spaceAfterPunct (stripWsBeforePunct (dedupPunct (crToLf (fixCrlf
    (applyOcrFixes (collapseWs s)))))))

/-! ### Claim C8 -/

/-- C8, counterexample: `cleanAndDenoiseText` is not idempotent — on
`"a ! !"` the first pass yields `"a!!"` (the spacing fix joins the two
exclamation marks after the duplicate-punctuation step already ran) and a
second pass further collapses it to `"a!"`. -/
theorem c8_counterexample :
    cleanAndDenoiseText "a ! !".data = "a!!".data ∧
    cleanAndDenoiseText (cleanAndDenoiseText "a ! !".data) = "a!".data ∧
    cleanAndDenoiseText (cleanAndDenoiseText "a ! !".data) ≠
      cleanAndDenoiseText "a ! !".data := by
  refine ⟨by decide, by decide, by decide⟩

/-- Characters on which the normalizer's punctuation machinery and
OCR-confusion table are inert: everything except `[.!?,:;]`, the fix-table
trigger characters, and the CJK punctuation marks of the table. -/
def plainChar (c : Char) : Bool :=
  !(c = '.' || c = '!' || c = '?' || c = ',' || c = ':' || c = ';' ||
    c = 'O' || c = 'l' || c = 'I' || c = 'S' || c = 'r' || c = 'v' ||
    c = 'i' || c = '，' || c = '。' || c = '：' || c = '；')

lemma plainChar_spec (c : Char) (h : plainChar c = true) :
    isSentPunct c = false ∧ isPunct5 c = false ∧ c ≠ 'O' ∧ c ≠ 'l' ∧
      c ≠ 'I' ∧ c ≠ 'S' ∧ c ≠ 'r' ∧ c ≠ 'v' ∧ c ≠ 'i' ∧ c ≠ '，' ∧
      c ≠ '。' ∧ c ≠ '：' ∧ c ≠ '；' := by
  rw [plainChar, Bool.not_eq_true'] at h
  simp only [Bool.or_eq_false_iff, decide_eq_false_iff_not] at h
  obtain ⟨⟨⟨⟨⟨⟨⟨⟨⟨⟨⟨⟨⟨⟨⟨⟨h1, h2⟩, h3⟩, h4⟩, h5⟩, h6⟩, h7⟩, h8⟩, h9⟩,
    h10⟩, h11⟩, h12⟩, h13⟩, h14⟩, h15⟩, h16⟩, h17⟩ := h
  refine ⟨?_, ?_, h7, h8, h9, h10, h11, h12, h13, h14, h15, h16, h17⟩
  · simp [isSentPunct, h1, h2, h3]
  · simp [isPunct5, h1, h2, h3, h4, h5, h6]

lemma replaceTok1_id (t : Char) (rep : List Char) (s : List Char)
    (h : ∀ c ∈ s, c ≠ t) : ∀ prev, replaceTok1 t rep prev s = s := by
  induction s with
  | nil => intro prev; rfl
  | cons c cs ih =>
      intro prev
      have hc : (c == t) = false := by
        simp [h c (List.mem_cons_self c cs)]
      simp only [replaceTok1, hc, Bool.false_and, Bool.false_eq_true,
        if_false, List.cons.injEq, true_and]
      exact ih (fun x hx => h x (List.mem_cons_of_mem c hx)) (some c)

lemma replaceTok2_id (t1 t2 : Char) (rep : List Char) (s : List Char)
    (h : ∀ c ∈ s, c ≠ t1) : ∀ prev, replaceTok2 t1 t2 rep prev s = s := by
  induction s with
  | nil => intro prev; rfl
  | cons c cs ih =>
      intro prev
      match cs with
      | [] => rfl
      | c2 :: cs2 =>
          have hc : (c == t1) = false := by
            simp [h c (List.mem_cons_self c (c2 :: cs2))]
          simp only [replaceTok2, hc, Bool.false_and, Bool.false_eq_true,
            if_false, List.cons.injEq, true_and]
          exact ih (fun x hx => h x (List.mem_cons_of_mem c hx)) (some c)

lemma fixCrlf_id (s : List Char) (h : ∀ c ∈ s, c ≠ '\r') :
    fixCrlf s = s := by
  induction s with
  | nil => rfl
  | cons c cs ih =>
      match cs with
      | [] => rfl
      | c2 :: cs2 =>
          have hc : (c = '\r') = False := by
            simp [h c (List.mem_cons_self c (c2 :: cs2))]
          simp only [fixCrlf, hc, decide_False, Bool.false_and,
            Bool.false_eq_true, if_false, List.cons.injEq, true_and]
          exact ih (fun x hx => h x (List.mem_cons_of_mem c hx))

lemma crToLf_id (s : List Char) (h : ∀ c ∈ s, c ≠ '\r') :
    crToLf s = s := by
  induction s with
  | nil => rfl
  | cons c cs ih =>
      simp only [crToLf, List.map_cons, List.cons.injEq]
      constructor
      · simp [h c (List.mem_cons_self c cs)]
      · exact ih (fun x hx => h x (List.mem_cons_of_mem c hx))

lemma dedupPunct_id (s : List Char) (h : ∀ c ∈ s, isSentPunct c = false) :
    ∀ prev, dedupPunctAux prev s = s := by
  induction s with
  | nil => intro prev; rfl
  | cons c cs ih =>
      intro prev
      have hc : isSentPunct c = false := h c (List.mem_cons_self c cs)
      simp only [dedupPunctAux, hc, Bool.false_and, Bool.false_eq_true,
        if_false, List.cons.injEq, true_and]
      exact ih (fun x hx => h x (List.mem_cons_of_mem c hx)) (some c)

lemma stripWsBeforePunct_eq (s : List Char)
    (h : ∀ c ∈ s, isPunct5 c = false) :
    ∀ pending, stripWsBeforePunctAux pending s = pending.reverse ++ s := by
  induction s with
  | nil => intro pending; simp [stripWsBeforePunctAux]
  | cons c cs ih =>
      intro pending
      have hc : isPunct5 c = false := h c (List.mem_cons_self c cs)
      have ihc := ih (fun x hx => h x (List.mem_cons_of_mem c hx))
      by_cases hw : jsWs c = true
      · simp only [stripWsBeforePunctAux, hw, if_true, ihc (c :: pending),
          List.reverse_cons, List.append_assoc, List.singleton_append]
      · have hw2 : jsWs c = false := by
          cases hjs : jsWs c
          · rfl
          · exact absurd hjs hw
        simp only [stripWsBeforePunctAux, hw2, Bool.false_eq_true, if_false,
          hc, ihc []]
        simp

lemma spaceAfterPunct_id (s : List Char)
    (h : ∀ c ∈ s, isSentPunct c = false) :
    spaceAfterPunctAux none s = s := by
  induction s with
  | nil => rfl
  | cons c cs ih =>
      have hc : isSentPunct c = false := h c (List.mem_cons_self c cs)
      simp only [spaceAfterPunctAux, hc, Bool.false_eq_true, if_false,
        List.cons.injEq, true_and]
      exact ih (fun x hx => h x (List.mem_cons_of_mem c hx))

lemma jsWs_space : jsWs ' ' = true := rfl

lemma collapseWsAux_cons_ws_true {a : Char} (as : List Char)
    (hw : jsWs a = true) :
    collapseWsAux true (a :: as) = collapseWsAux true as := by
  simp [collapseWsAux, hw]

lemma collapseWsAux_cons_ws_false {a : Char} (as : List Char)
    (hw : jsWs a = true) :
    collapseWsAux false (a :: as) = ' ' :: collapseWsAux true as := by
  simp [collapseWsAux, hw]

lemma collapseWsAux_cons_nws {a : Char} (as : List Char)
    (hw : jsWs a = false) (b : Bool) :
    collapseWsAux b (a :: as) = a :: collapseWsAux false as := by
  simp [collapseWsAux, hw]

lemma jsWs_false_of_ne {a : Char} (h : ¬ jsWs a = true) : jsWs a = false := by
  cases hjs : jsWs a
  · rfl
  · exact absurd hjs h

lemma collapseWsAux_mem (s : List Char) :
    ∀ b c, c ∈ collapseWsAux b s → c = ' ' ∨ (c ∈ s ∧ jsWs c = false) := by
  induction s with
  | nil => intro b c hc; simp [collapseWsAux] at hc
  | cons a as ih =>
      intro b c hc
      by_cases hw : jsWs a = true
      · cases b with
        | true =>
            rw [collapseWsAux_cons_ws_true as hw] at hc
            rcases ih true c hc with h | h
            · exact Or.inl h
            · exact Or.inr ⟨List.mem_cons_of_mem a h.1, h.2⟩
        | false =>
            rw [collapseWsAux_cons_ws_false as hw] at hc
            rcases List.mem_cons.mp hc with h | h
            · exact Or.inl h
            · rcases ih true c h with h2 | h2
              · exact Or.inl h2
              · exact Or.inr ⟨List.mem_cons_of_mem a h2.1, h2.2⟩
      · have hw2 := jsWs_false_of_ne hw
        rw [collapseWsAux_cons_nws as hw2 b] at hc
        rcases List.mem_cons.mp hc with h | h
        · subst h; exact Or.inr ⟨List.mem_cons_self c as, hw2⟩
        · rcases ih false c h with h2 | h2
          · exact Or.inl h2
          · exact Or.inr ⟨List.mem_cons_of_mem a h2.1, h2.2⟩

lemma collapseWsAux_length_le (s : List Char) :
    ∀ b, (collapseWsAux b s).length ≤ s.length := by
  induction s with
  | nil => intro b; simp [collapseWsAux]
  | cons a as ih =>
      intro b
      by_cases hw : jsWs a = true
      · cases b with
        | true =>
            rw [collapseWsAux_cons_ws_true as hw]
            exact Nat.le_succ_of_le (ih true)
        | false =>
            rw [collapseWsAux_cons_ws_false as hw]
            exact Nat.succ_le_succ (ih true)
      · rw [collapseWsAux_cons_nws as (jsWs_false_of_ne hw) b]
        exact Nat.succ_le_succ (ih false)

lemma collapseWs_idem_aux (s : List Char) :
    collapseWsAux false (collapseWsAux false s) = collapseWsAux false s ∧
    collapseWsAux false (collapseWsAux true s) = collapseWsAux true s ∧
    collapseWsAux true (collapseWsAux true s) = collapseWsAux true s := by
  induction s with
  | nil => exact ⟨rfl, rfl, rfl⟩
  | cons a as ih =>
      obtain ⟨ihff, ihft, ihtt⟩ := ih
      by_cases hw : jsWs a = true
      · refine ⟨?_, ?_, ?_⟩
        · rw [collapseWsAux_cons_ws_false as hw,
            collapseWsAux_cons_ws_false _ jsWs_space, ihtt]
        · rw [collapseWsAux_cons_ws_true as hw, ihft]
        · rw [collapseWsAux_cons_ws_true as hw, ihtt]
      · have hw2 := jsWs_false_of_ne hw
        refine ⟨?_, ?_, ?_⟩
        · rw [collapseWsAux_cons_nws as hw2 false,
            collapseWsAux_cons_nws _ hw2 false, ihff]
        · rw [collapseWsAux_cons_nws as hw2 true,
            collapseWsAux_cons_nws _ hw2 false, ihff]
        · rw [collapseWsAux_cons_nws as hw2 true,
            collapseWsAux_cons_nws _ hw2 true, ihff]

lemma collapseWs_idem (s : List Char) :
    collapseWs (collapseWs s) = collapseWs s :=
  (collapseWs_idem_aux s).1

lemma collapseWsAux_true_fix (s : List Char)
    (h : collapseWsAux true s = s) :
    s = [] ∨ ∃ c cs, s = c :: cs ∧ jsWs c = false ∧
      collapseWsAux false cs = cs := by
  match s, h with
  | [], _ => exact Or.inl rfl
  | a :: as, h =>
      by_cases hw : jsWs a = true
      · exfalso
        rw [collapseWsAux_cons_ws_true as hw] at h
        have hlen := collapseWsAux_length_le as true
        rw [h] at hlen
        simp at hlen
      · have hw2 := jsWs_false_of_ne hw
        rw [collapseWsAux_cons_nws as hw2 true] at h
        injection h with h1 h2
        exact Or.inr ⟨a, as, rfl, hw2, h2⟩

lemma collapseWsAux_true_to_false (s : List Char)
    (h : collapseWsAux true s = s) : collapseWsAux false s = s := by
  rcases collapseWsAux_true_fix s h with h2 | ⟨c, cs, rfl, hw, hfix⟩
  · subst h2; rfl
  · rw [collapseWsAux_cons_nws cs hw false, hfix]

lemma collapseWsAux_true_dropWhile (s : List Char)
    (h : collapseWsAux true s = s) : s.dropWhile jsWs = s := by
  rcases collapseWsAux_true_fix s h with h2 | ⟨c, cs, rfl, hw, _⟩
  · subst h2; rfl
  · rw [List.dropWhile_cons_of_neg]
    simp [hw]

lemma collapseWs_cons_ws_parts {a : Char} (as : List Char)
    (hw : jsWs a = true) (h : collapseWsAux false (a :: as) = a :: as) :
    a = ' ' ∧ collapseWsAux true as = as := by
  rw [collapseWsAux_cons_ws_false as hw] at h
  injection h with h1 h2
  exact ⟨h1.symm, h2⟩

lemma trimRight_fix (s : List Char) :
    (collapseWsAux false s = s →
      collapseWsAux false (trimRight s) = trimRight s) ∧
    (collapseWsAux true s = s →
      collapseWsAux true (trimRight s) = trimRight s) := by
  induction s with
  | nil => exact ⟨fun _ => rfl, fun _ => rfl⟩
  | cons a as ih =>
      obtain ⟨ihf, iht⟩ := ih
      constructor
      · intro h
        by_cases hw : jsWs a = true
        · obtain ⟨ha, has⟩ := collapseWs_cons_ws_parts as hw h
          rw [trimRight]
          cases htr : trimRight as with
          | nil => rw [hw]; rfl
          | cons r rs =>
              have hbr := iht has
              rw [htr] at hbr
              rw [ha, collapseWsAux_cons_ws_false _ jsWs_space, hbr]
        · have hw2 := jsWs_false_of_ne hw
          rw [collapseWsAux_cons_nws as hw2 false] at h
          injection h with h1 h2
          rw [trimRight]
          cases htr : trimRight as with
          | nil =>
              rw [hw2]
              simp only [Bool.false_eq_true, if_false]
              rw [collapseWsAux_cons_nws _ hw2 false]
              rfl
          | cons r rs =>
              have hfr := ihf h2
              rw [htr] at hfr
              rw [collapseWsAux_cons_nws _ hw2 false, hfr]
      · intro h
        by_cases hw : jsWs a = true
        · exfalso
          rw [collapseWsAux_cons_ws_true as hw] at h
          have hlen := collapseWsAux_length_le as true
          rw [h] at hlen
          simp at hlen
        · have hw2 := jsWs_false_of_ne hw
          rw [collapseWsAux_cons_nws as hw2 true] at h
          injection h with h1 h2
          rw [trimRight]
          cases htr : trimRight as with
          | nil =>
              rw [hw2]
              simp only [Bool.false_eq_true, if_false]
              rw [collapseWsAux_cons_nws _ hw2 true]
              rfl
          | cons r rs =>
              have hfr := ihf h2
              rw [htr] at hfr
              rw [collapseWsAux_cons_nws _ hw2 true, hfr]

lemma collapseWs_dropWhile_fix (s : List Char) (h : collapseWs s = s) :
    collapseWs (s.dropWhile jsWs) = s.dropWhile jsWs := by
  match s, h with
  | [], _ => rfl
  | a :: as, h =>
      by_cases hw : jsWs a = true
      · obtain ⟨ha, has⟩ := collapseWs_cons_ws_parts as hw h
        rw [List.dropWhile_cons_of_pos (by simp [hw]),
          collapseWsAux_true_dropWhile as has]
        exact collapseWsAux_true_to_false as has
      · rw [List.dropWhile_cons_of_neg (by simp [jsWs_false_of_ne hw])]
        exact h

lemma dropWhile_twice (p : Char → Bool) (l : List Char) :
    (l.dropWhile p).dropWhile p = l.dropWhile p := by
  induction l with
  | nil => rfl
  | cons a as ih =>
      by_cases hp : p a = true
      · rw [List.dropWhile_cons_of_pos hp]
        exact ih
      · rw [List.dropWhile_cons_of_neg hp, List.dropWhile_cons_of_neg hp]

lemma trimRight_cons (a : Char) (as : List Char) :
    trimRight (a :: as) = match trimRight as with
      | [] => if jsWs a = true then [] else [a]
      | r => a :: r := rfl

lemma trimRight_singleton (a : Char) :
    trimRight [a] = if jsWs a = true then [] else [a] := rfl

lemma trimRight_idem (s : List Char) :
    trimRight (trimRight s) = trimRight s := by
  induction s with
  | nil => rfl
  | cons a as ih =>
      rw [trimRight_cons]
      cases htr : trimRight as with
      | nil =>
          by_cases hw : jsWs a = true
          · rw [hw]
            rfl
          · rw [jsWs_false_of_ne hw]
            simp only [Bool.false_eq_true, if_false]
            rw [trimRight_singleton, jsWs_false_of_ne hw]
            simp only [Bool.false_eq_true, if_false]
      | cons r rs =>
          have hrr : trimRight (r :: rs) = r :: rs := by
            rw [← htr]
            exact ih
          show trimRight (a :: r :: rs) = a :: r :: rs
          rw [trimRight_cons, hrr]

lemma trim_comm (s : List Char) :
    trimRight (s.dropWhile jsWs) = (trimRight s).dropWhile jsWs := by
  induction s with
  | nil => rfl
  | cons a as ih =>
      by_cases hw : jsWs a = true
      · rw [List.dropWhile_cons_of_pos hw, ih, trimRight_cons]
        cases htr : trimRight as with
        | nil =>
            rw [hw]
            rfl
        | cons r rs =>
            show (r :: rs).dropWhile jsWs = (a :: r :: rs).dropWhile jsWs
            rw [List.dropWhile_cons_of_pos hw]
      · rw [List.dropWhile_cons_of_neg hw, trimRight_cons]
        cases htr : trimRight as with
        | nil =>
            rw [jsWs_false_of_ne hw]
            show [a] = List.dropWhile jsWs [a]
            rw [List.dropWhile_cons_of_neg hw]
        | cons r rs =>
            show a :: r :: rs = (a :: r :: rs).dropWhile jsWs
            rw [List.dropWhile_cons_of_neg hw]

lemma jsTrim_idem (s : List Char) : jsTrim (jsTrim s) = jsTrim s := by
  unfold jsTrim trimLeft
  rw [trim_comm (trimRight s), trimRight_idem, dropWhile_twice]

lemma mem_trimRight (s : List Char) (c : Char) (h : c ∈ trimRight s) :
    c ∈ s := by
  induction s with
  | nil => simp [trimRight] at h
  | cons a as ih =>
      rw [trimRight_cons] at h
      cases htr : trimRight as with
      | nil =>
          rw [htr] at h
          by_cases hw : jsWs a = true
          · rw [hw] at h
            have h2 : c ∈ ([] : List Char) := h
            simp at h2
          · rw [jsWs_false_of_ne hw] at h
            have h2 : c ∈ [a] := h
            rw [List.mem_singleton] at h2
            subst h2
            exact List.mem_cons_self c as
      | cons r rs =>
          rw [htr] at h
          have h2 : c ∈ a :: r :: rs := h
          rcases List.mem_cons.mp h2 with h3 | h3
          · subst h3
            exact List.mem_cons_self c as
          · refine List.mem_cons_of_mem a (ih ?_)
            rw [htr]
            exact h3

lemma mem_jsTrim (s : List Char) (c : Char) (h : c ∈ jsTrim s) : c ∈ s := by
  unfold jsTrim trimLeft at h
  exact mem_trimRight s c ((List.dropWhile_sublist _).subset h)

lemma plainChar_space : plainChar ' ' = true := rfl

lemma applyOcrFixes_id (x : List Char) (h : ∀ c ∈ x, plainChar c = true) :
    applyOcrFixes x = x := by
  have hs := fun c hc => plainChar_spec c (h c hc)
  rw [applyOcrFixes,
    replaceTok1_id 'O' "0".data x (fun c hc => (hs c hc).2.2.1) none,
    replaceTok1_id 'l' "1".data x (fun c hc => (hs c hc).2.2.2.1) none,
    replaceTok1_id 'I' "1".data x (fun c hc => (hs c hc).2.2.2.2.1) none,
    replaceTok1_id 'S' "5".data x (fun c hc => (hs c hc).2.2.2.2.2.1) none,
    replaceTok2_id 'r' 'n' "m".data x
      (fun c hc => (hs c hc).2.2.2.2.2.2.1) none,
    replaceTok2_id 'v' 'v' "w".data x
      (fun c hc => (hs c hc).2.2.2.2.2.2.2.1) none,
    replaceTok2_id 'i' 'i' "ll".data x
      (fun c hc => (hs c hc).2.2.2.2.2.2.2.2.1) none,
    replaceTok1_id '，' ",".data x
      (fun c hc => (hs c hc).2.2.2.2.2.2.2.2.2.1) none,
    replaceTok1_id '。' ".".data x
      (fun c hc => (hs c hc).2.2.2.2.2.2.2.2.2.2.1) none,
    replaceTok1_id '：' ":".data x
      (fun c hc => (hs c hc).2.2.2.2.2.2.2.2.2.2.2.1) none,
    replaceTok1_id '；' ";".data x
      (fun c hc => (hs c hc).2.2.2.2.2.2.2.2.2.2.2.2) none]

lemma clean_plain_eq (s : List Char) (h : ∀ c ∈ s, plainChar c = true) :
    cleanAndDenoiseText s = jsTrim (collapseWs s) := by
  have hx : ∀ c ∈ collapseWs s, plainChar c = true ∧ c ≠ '\r' := by
    intro c hc
    rcases collapseWsAux_mem s false c hc with h1 | ⟨hmem, hws⟩
    · subst h1
      exact ⟨plainChar_space, by decide⟩
    · refine ⟨h c hmem, fun hcr => ?_⟩
      subst hcr
      exact absurd hws (by decide)
  have hplain : ∀ c ∈ collapseWs s, plainChar c = true :=
    fun c hc => (hx c hc).1
  have hnr : ∀ c ∈ collapseWs s, c ≠ '\r' := fun c hc => (hx c hc).2
  have hsp : ∀ c ∈ collapseWs s, isSentPunct c = false :=
    fun c hc => (plainChar_spec c (hplain c hc)).1
  have hp5 : ∀ c ∈ collapseWs s, isPunct5 c = false :=
    fun c hc => (plainChar_spec c (hplain c hc)).2.1
  unfold cleanAndDenoiseText
  rw [applyOcrFixes_id _ hplain, fixCrlf_id _ hnr, crToLf_id _ hnr]
  unfold dedupPunct
  rw [dedupPunct_id _ hsp none]
  unfold stripWsBeforePunct
  rw [stripWsBeforePunct_eq _ hp5 [], List.reverse_nil, List.nil_append]
  unfold spaceAfterPunct
  rw [spaceAfterPunct_id _ hsp]

/-- C8, amended: `cleanAndDenoiseText` is idempotent on text that contains
no sentence punctuation `[.!?,:;]`, none of the OCR-confusion trigger
characters (`O`, `l`, `I`, `S`, `r`, `v`, `i`), and none of the CJK
punctuation marks of the fix table — on such text one pass only collapses
whitespace and trims, and a second pass changes nothing.  (On general text
idempotence fails, see the counterexample.) -/
theorem c8_idempotent_on_plain_text (s : List Char)
    (h : ∀ c ∈ s, plainChar c = true) :
    cleanAndDenoiseText (cleanAndDenoiseText s) = cleanAndDenoiseText s := by
  have h1 := clean_plain_eq s h
  have hy : ∀ c ∈ jsTrim (collapseWs s), plainChar c = true := by
    intro c hc
    have hc2 : c ∈ collapseWs s := mem_jsTrim _ c hc
    rcases collapseWsAux_mem s false c hc2 with e | ⟨hm, _⟩
    · subst e
      exact plainChar_space
    · exact h c hm
  have h2 := clean_plain_eq _ hy
  rw [h1, h2]
  have hfix : collapseWs (collapseWs s) = collapseWs s := collapseWs_idem s
  have hR : collapseWs (trimRight (collapseWs s)) =
      trimRight (collapseWs s) := (trimRight_fix _).1 hfix
  have htrfix : collapseWs (jsTrim (collapseWs s)) = jsTrim (collapseWs s) := by
    unfold jsTrim trimLeft
    exact collapseWs_dropWhile_fix _ hR
  rw [htrfix]
  exact jsTrim_idem _

/-- Witness for C8 at a concrete plain input: `"good  day"` normalizes to
`"good day"` and a second pass leaves it unchanged. -/
theorem c8_idempotent_witness :
    cleanAndDenoiseText (cleanAndDenoiseText "good  day".data) =
      cleanAndDenoiseText "good  day".data :=
  c8_idempotent_on_plain_text "good  day".data (by decide)
